import Mathlib

/-!
Verification of the porcupine run-dialog plugin and utility helpers.

The development shallowly embeds the Python sources:
  * `porcupine/utils.py` (`backup_open`, `run_in_thread`)
  * `porcupine/plugins/run/dialog.py` (`_FormattingEntryAndLabels`,
    `_CommandAsker`, `ask_command`)

Files are strings of bytes, the filesystem is an association list from paths
to contents, Python exceptions are an explicit `PyExc` type carried in
`Except`.  The `Command` formatting functions live in the plugin module
`common.py`, whose source is not part of this snapshot; they are modelled
from the spec where noted.
-/

namespace Porcupine

/-! ## Filesystem model

An association list from paths to file contents.  `fsSet` and `fsRemove`
keep at most one binding per path. -/

abbrev Fs := List (String × String)

def fsGet (fs : Fs) (p : String) : Option String :=
  (List.find? (fun e => e.1 == p) fs).map Prod.snd

def fsExists (fs : Fs) (p : String) : Bool :=
  (fsGet fs p).isSome

def fsSet (fs : Fs) (p : String) (c : String) : Fs :=
  (p, c) :: List.filter (fun e => e.1 != p) fs

def fsRemove (fs : Fs) (p : String) : Fs :=
  List.filter (fun e => e.1 != p) fs

/-! ## os.path.splitext

Embedding of CPython `posixpath.splitext` (the generic `_splitext` with
`sep = '/'`, no altsep, `extsep = '.'`): find the last separator and the
last dot; if the dot is after the separator and the basename does not
consist only of dots up to it, split at the dot. -/

def rfindIdx : List Char → Char → Option Nat
  | [], _ => none
  | a :: rest, c =>
    match rfindIdx rest c with
    | some n => some (n + 1)
    | none => if a == c then some 0 else none

def idxInt (o : Option Nat) : Int :=
  match o with
  | none => -1
  | some n => (n : Int)

def splitext (p : String) : String × String :=
  let cs := p.toList
  let sepIdx : Int := idxInt (rfindIdx cs '/')
  let dotIdx : Int := idxInt (rfindIdx cs '.')
  if sepIdx < dotIdx then
    let d := dotIdx.toNat
    let start := (sepIdx + 1).toNat
    if (List.take (d - start) (List.drop start cs)).any (fun ch => ch != '.') then
      (String.mk (List.take d cs), String.mk (List.drop d cs))
    else (p, "")
  else (p, "")

/-! ## utils.backup_open

Embedding of the loop in `backup_open`:
`while os.path.exists(name + ext): name += '-backup'`.
The Python loop terminates because the filesystem is finite; the embedding
makes that explicit with a fuel argument, and `backup_open` passes fuel
`fs.length + 1`, which is always sufficient. -/

def findBackupName (fs : Fs) : Nat → String → String → String
  | 0, name, ext => name ++ ext
  | fuel + 1, name, ext =>
    if fsExists fs (name ++ ext) then
      findBackupName fs fuel (name ++ "-backup") ext
    else name ++ ext

def backupPathOf (fs : Fs) (path : String) : String :=
  findBackupName fs (fs.length + 1) (splitext path).1 (splitext path).2

/-- Embedding of the context manager `backup_open(path, *args)` run over a
with-block.  The `body` parameter models "open the file and execute the
with-block" as a filesystem transformer that may raise: it returns the
filesystem after the block together with `some exc` when the open or the
block raised `exc`.  `shutil.copy` duplicates the contents, `shutil.move`
removes the source and overwrites the destination, `os.remove` deletes.
The result is the final filesystem paired with the exception propagated to
the caller, if any. -/
def backup_open (fs : Fs) (path : String) (body : Fs → Fs × Option String) :
    Fs × Option String :=
  if fsExists fs path then
    let backuppath := backupPathOf fs path
    let fs1 :=
      match fsGet fs path with
      | some c => fsSet fs backuppath c
      | none => fs
    match body fs1 with
    | (fs2, some e) =>
      let restored :=
        match fsGet fs2 backuppath with
        | some c => fsSet (fsRemove fs2 backuppath) path c
        | none => fsRemove fs2 backuppath
      (restored, some e)
    | (fs2, none) => (fsRemove fs2 backuppath, none)
  else
    body fs

/-! ## Python exceptions -/

inductive PyExc where
  | valueError (msg : String)
  | keyError (msg : String)
  | indexError (msg : String)
  | other (msg : String)
deriving DecidableEq, Repr

/-- Exceptions caught by `except (ValueError, KeyError, IndexError)`. -/
def caught : PyExc → Bool
  | .valueError _ => true
  | .keyError _ => true
  | .indexError _ => true
  | .other _ => false

/-! ## utils.run_in_thread

The worker thread is modelled by the outcome of `blocking_function`
(`Except PyExc T`: normal return or raised exception) together with its
exit time `exitAt`: `thread.is_alive()` at the k-th poll of `check` is
`k < exitAt`. -/

def excMessage : PyExc → String
  | .valueError m => "ValueError: " ++ m
  | .keyError m => "KeyError: " ++ m
  | .indexError m => "IndexError: " ++ m
  | .other m => m

/-- `traceback.format_exc()` rendered on the caught exception; the exact
traceback text is irrelevant to the claims, only that the error message is
delivered as a string. -/
def format_exc (e : PyExc) : String :=
  "Traceback (most recent call last):\n" ++ excMessage e

/-- Embedding of the `thread_target` closure in `run_in_thread`: run
`blocking_function`, store `[True, value]` on normal return and
`[False, traceback.format_exc()]` when it raises; no exception escapes. -/
def thread_target {T : Type} (blocking : Except PyExc T) : Bool × (T ⊕ String) :=
  match blocking with
  | .ok v => (true, Sum.inl v)
  | .error e => (false, Sum.inr (format_exc e))

/-- Embedding of the `check` closure in `run_in_thread`: re-arm via
`root.after(100, check)` while the thread is alive, call `done_callback`
when it is not.  `fuel` bounds the polls considered; the result is the
poll index at which `done_callback` is invoked, `none` when it has not
been invoked within `fuel` polls.  The single `some` result also models
that the callback is invoked at most once. -/
def checkPolls (exitAt : Nat) : Nat → Nat → Option Nat
  | 0, _ => none
  | fuel + 1, k => if k < exitAt then checkPolls exitAt fuel (k + 1) else some k

/-- Embedding of `run_in_thread`: the argument eventually passed to
`done_callback`, or `none` while the polling loop is still re-arming. -/
def run_in_thread {T : Type} (blocking : Except PyExc T) (exitAt fuel : Nat) :
    Option (Bool × (T ⊕ String)) :=
  (checkPolls exitAt fuel 0).map (fun _ => thread_target blocking)

/-! ## _FormattingEntryAndLabels -/

/-- State of a passive Tk text widget as configured by `validate`. -/
structure Display where
  text : String
  state : String
  font : String
deriving DecidableEq, Repr

/-- Embedding of `_FormattingEntryAndLabels.validate`: call
`get_substituted_value`; on ValueError/KeyError/IndexError clear the
display and show "Substitution error" in the default font, otherwise show
the returned value in the fixed font; leave the display disabled and call
`_validated_callback`.  The result pairs the display after the call with
`true` iff the validated callback was invoked; an exception the `except`
clause does not catch propagates as `Except.error`. -/
def FEL.validate (get_substituted_value : Except PyExc String) (d : Display) :
    Except PyExc (Display × Bool) :=
  match get_substituted_value with
  | .error e =>
    if caught e then
      .ok ({ text := "Substitution error", state := "disabled", font := "TkDefaultFont" }, true)
    else .error e
  | .ok value =>
    .ok ({ text := value, state := "disabled", font := "TkFixedFont" }, true)

/-! ## Command formatting (plugins/run/common.py)

`common.Command` and its formatting methods are declared in
`plugins/run/common.py`, which is not part of this source snapshot; the
model below follows the spec. -/

def lbrace : Char := Char.ofNat 123

def rbrace : Char := Char.ofNat 125

structure Command where
  command_format : String
  cwd_format : String
  external_terminal : Bool
  substitutions : List (String × String)
deriving DecidableEq, Repr

def lookupSub (subs : List (String × String)) (k : String) : Option String :=
  (List.find? (fun e => e.1 == k) subs).map Prod.snd

/-- Modelled from the spec: the core of `common.Command` formatting, which
is not under `src/`.  The spec says a substitution is "a named placeholder
(e.g. folder path) replaced into a command template at format time" and
that formatting "produces the literal strings shown to the user or
ultimately executed"; the dialog catches ValueError, KeyError and
IndexError from it.  This is Python `str.format` on named fields: doubled
braces are literal braces, a stray or unterminated brace raises
ValueError, an unknown field name raises KeyError.  The first argument is
fuel (each step consumes at least one character, so `length + 1` as passed
by `format_string` always suffices); the `Option` argument holds the
reversed characters of the field name being collected, `none` outside a
field. -/
def fmtRun (subs : List (String × String)) :
    Nat → Option (List Char) → List Char → Except PyExc (List Char)
  | 0, _, _ => Except.error (PyExc.other "format recursion limit")
  | _ + 1, none, [] => Except.ok []
  | _ + 1, some _, [] =>
    Except.error (PyExc.valueError "Single brace encountered in format string")
  | fuel + 1, none, c :: cs =>
    if c == lbrace then
      match cs with
      | [] => Except.error (PyExc.valueError "Single brace encountered in format string")
      | c2 :: cs2 =>
        if c2 == lbrace then (fmtRun subs fuel none cs2).map (fun t => lbrace :: t)
        else fmtRun subs fuel (some []) cs
    else if c == rbrace then
      match cs with
      | [] => Except.error (PyExc.valueError "Single brace encountered in format string")
      | c2 :: cs2 =>
        if c2 == rbrace then (fmtRun subs fuel none cs2).map (fun t => rbrace :: t)
        else Except.error (PyExc.valueError "Single brace encountered in format string")
    else (fmtRun subs fuel none cs).map (fun t => c :: t)
  | fuel + 1, some name, c :: cs =>
    if c == rbrace then
      match lookupSub subs (String.mk name.reverse) with
      | some v => (fmtRun subs fuel none cs).map (fun t => v.toList ++ t)
      | none => Except.error (PyExc.keyError (String.mk name.reverse))
    else fmtRun subs fuel (some (c :: name)) cs

def format_string (fmt : String) (subs : List (String × String)) :
    Except PyExc String :=
  (fmtRun subs (fmt.length + 1) none fmt.toList).map String.mk

/-- Modelled from the spec: `Command.format_command` formats the command
template with the substitution map. -/
def Command.format_command (c : Command) : Except PyExc String :=
  format_string c.command_format c.substitutions

/-- Modelled from the spec: `Command.format_cwd` formats the directory
template with the substitution map; the dialog uses it through
`str(...)`, so the `pathlib.Path` wrapper is modelled as the formatted
string itself. -/
def Command.format_cwd (c : Command) : Except PyExc String :=
  format_string c.cwd_format c.substitutions

/-! ## _CommandAsker -/

/-- State of the run-command dialog: the texts of the two entries
(`format_var` of `self.command` and `self.cwd`), the radio-button
variable `terminal_var`, the substitutions captured in `__init__`, the
repeat bindings and the combobox selection `_repeat_var`. -/
structure AskerState where
  command_text : String
  cwd_text : String
  terminal : Bool
  substitutions : List (String × String)
  repeat_bindings : List String
  repeat_sel : String
deriving DecidableEq, Repr

/-- Embedding of `_CommandAsker.get_command`. -/
def get_command (s : AskerState) : Command :=
  { command_format := s.command_text
    cwd_format := s.cwd_text
    external_terminal := s.terminal
    substitutions := s.substitutions }

/-- The validate call on the command row as wired in `__init__`:
`get_substituted_value` is `lambda: self.get_command().format_command()`. -/
def asker_validate_command (s : AskerState) (d : Display) :
    Except PyExc (Display × Bool) :=
  FEL.validate (get_command s).format_command d

/-- The validate call on the directory row as wired in `__init__`:
`get_substituted_value` is `lambda: str(self.get_command().format_cwd())`. -/
def asker_validate_cwd (s : AskerState) (d : Display) :
    Except PyExc (Display × Bool) :=
  FEL.validate (get_command s).format_cwd d

/-- Whitespace as recognised by Python `str.strip` (ASCII part). -/
def isPySpace (c : Char) : Bool :=
  c == ' ' || c == '\t' || c == '\n' || c == '\r'
    || c == Char.ofNat 11 || c == Char.ofNat 12

/-- Embedding of Python `str.strip()`: drop leading and trailing
whitespace. -/
def strip (s : String) : String :=
  String.mk (((s.toList.dropWhile isPySpace).reverse.dropWhile isPySpace).reverse)

/-- Embedding of `pathlib.PurePosixPath.is_absolute`: the path starts with
the separator. -/
def is_absolute (p : String) : Bool :=
  match p.toList with
  | [] => false
  | c :: _ => c == '/'

/-- Embedding of `_CommandAsker.command_and_cwd_are_valid`; `is_dir` is
the filesystem oracle for `Path.is_dir()`. -/
def command_and_cwd_are_valid (is_dir : String → Bool) (s : AskerState) :
    Except PyExc Bool :=
  match (get_command s).format_command with
  | .error e => if caught e then .ok false else .error e
  | .ok command =>
    match (get_command s).format_cwd with
    | .error e => if caught e then .ok false else .error e
    | .ok cwd => .ok (strip command != "" && is_dir cwd && is_absolute cwd)

/-- Embedding of `_CommandAsker.update_run_button`: the resulting state of
the Run button. -/
def update_run_button (is_dir : String → Bool) (s : AskerState) :
    Except PyExc String :=
  (command_and_cwd_are_valid is_dir s).map (fun valid =>
    if valid && List.contains s.repeat_bindings s.repeat_sel then "normal"
    else "disabled")

/-- Embedding of `_CommandAsker.get_key_id`:
`self._repeat_bindings.index(self._repeat_var.get())`, where `list.index`
raises ValueError when the value is absent. -/
def get_key_id (s : AskerState) : Except PyExc Nat :=
  match List.findIdx? (fun b => b == s.repeat_sel) s.repeat_bindings with
  | some i => Except.ok i
  | none => Except.error (PyExc.valueError (s.repeat_sel ++ " is not in list"))

/-! ## ask_command -/

structure AskOutcome where
  focused_existing : Bool
  constructed : Bool
  result : Option (Command × Nat)
deriving DecidableEq, Repr

/-- Embedding of `ask_command`: when a window named `run_command_asker`
already exists it is focused and None is returned without constructing a
dialog; otherwise a dialog is constructed and runs to completion, `final`
being its state when the window closes and `run_clicked` whether the Run
button was clicked. -/
def ask_command (window_exists : Bool) (final : AskerState) (run_clicked : Bool) :
    Except PyExc AskOutcome :=
  if window_exists then
    Except.ok { focused_existing := true, constructed := false, result := none }
  else if run_clicked then
    (get_key_id final).map (fun kid =>
      { focused_existing := false, constructed := true,
        result := some (get_command final, kid) })
  else
    Except.ok { focused_existing := false, constructed := true, result := none }

/-! ## Autocompletion -/

/-- Entry widget state: its text, the insertion cursor, and the selection
as a half-open character range. -/
structure EntryState where
  text : String
  icursor : Nat
  sel : Option (Nat × Nat)
deriving DecidableEq, Repr

/-- The dialog fields read and written by autocompletion. -/
structure AutoState where
  entry : EntryState
  cwd_text : String
  terminal : Bool
deriving DecidableEq, Repr

/-- Embedding of `_CommandAsker._select_command_autocompletion`: set the
command entry to the suggestion's full command_format, put the cursor at
the end of the typed part with the completed remainder selected, and copy
the suggestion's cwd_format and external_terminal. -/
def select_command_autocompletion (s : AutoState) (c : Command) (pre : String) :
    AutoState :=
  { entry := { text := c.command_format, icursor := pre.length,
               sel := some (pre.length, c.command_format.length) },
    cwd_text := c.cwd_format,
    terminal := c.external_terminal }

/-- The part of the entry text `_autocomplete` keeps: the whole text when
no selection is present, the part before the selection when the selection
reaches the end of the entry, and `none` (the handler gives up) otherwise. -/
def keptText (e : EntryState) : Option String :=
  match e.sel with
  | none => some e.text
  | some (selFirst, selLast) =>
    if selLast != e.text.length then none
    else some (String.mk (List.take selFirst e.text.toList))

/-- Embedding of Python `str.startswith`: `startswith s pre` is true when
`s` begins with `pre`. -/
def startswith (s pre : String) : Bool :=
  List.isPrefixOf pre.toList s.toList

/-- Embedding of `_CommandAsker._autocomplete`.  `printable` is the oracle
for `str.isprintable` and `ch` is `event.char`.  Returns the dialog state
after the handler and the handler result (`some "break"` to swallow the
keystroke, `none` to let Tk handle it normally). -/
def autocomplete (printable : String → Bool) (suggestions : List Command)
    (s : AutoState) (ch : String) : AutoState × Option String :=
  if ch.length != 1 || !(printable ch) then (s, none)
  else
    match keptText s.entry with
    | none => (s, none)
    | some text_to_keep =>
      match List.find?
          (fun item => startswith item.command_format (text_to_keep ++ ch))
          suggestions with
      | some item =>
        (select_command_autocompletion s item (text_to_keep ++ ch), some "break")
      | none => (s, none)

/-! ## Concrete instances used by the witnesses -/

def demoFs : Fs := [("a.txt", "hello")]

def demoBody (fs1 : Fs) : Fs × Option String :=
  (fsSet fs1 "a.txt" "partial", some "OSError")

def demoIsDir (p : String) : Bool := p == "/home"

def demoAsker : AskerState :=
  { command_text := "echo hi"
    cwd_text := "/home"
    terminal := false
    substitutions := []
    repeat_bindings := ["<F5>", "<F6>", "<F7>", "<F8>"]
    repeat_sel := "<F5>" }

def demoSubAsker : AskerState :=
  { command_text := "python3 \x7bfile\x7d"
    cwd_text := "\x7bfolder\x7d"
    terminal := false
    substitutions := [("file", "x.py"), ("folder", "/home/me")]
    repeat_bindings := ["<F5>", "<F6>", "<F7>", "<F8>"]
    repeat_sel := "<F5>" }

def demoDisplay : Display :=
  { text := "", state := "disabled", font := "TkFixedFont" }

def demoSuggestions : List Command :=
  [{ command_format := "make clean", cwd_format := "\x7bfolder_path\x7d",
     external_terminal := false, substitutions := [] },
   { command_format := "python3 x.py", cwd_format := "/home/me",
     external_terminal := true, substitutions := [] }]

def demoAuto : AutoState :=
  { entry := { text := "pyt", icursor := 2, sel := some (2, 3) },
    cwd_text := "", terminal := false }

/-! # Helper lemmas -/

theorem fsGet_fsSet_eq (fs : Fs) (p c : String) :
    fsGet (fsSet fs p c) p = some c := by
  simp [fsGet, fsSet]

theorem find?_filter_ne (fs : Fs) (p q : String) (h : q ≠ p) :
    List.find? (fun e => e.1 == q) (List.filter (fun e => e.1 != p) fs)
      = List.find? (fun e => e.1 == q) fs := by
  induction fs with
  | nil => rfl
  | cons a rest ih =>
    rw [List.filter_cons]
    by_cases hp : a.1 = p
    · rw [if_neg (by simp [hp]), List.find?_cons_of_neg _ (by simp [hp, Ne.symm h]), ih]
    · rw [if_pos (by simp [hp])]
      by_cases hq : a.1 = q
      · rw [List.find?_cons_of_pos _ (by simp [hq]), List.find?_cons_of_pos _ (by simp [hq])]
      · rw [List.find?_cons_of_neg _ (by simp [hq]), List.find?_cons_of_neg _ (by simp [hq]),
          ih]

theorem fsGet_fsSet_ne (fs : Fs) (p c q : String) (h : q ≠ p) :
    fsGet (fsSet fs p c) q = fsGet fs q := by
  unfold fsGet fsSet
  rw [List.find?_cons_of_neg _ (by simp [Ne.symm h]), find?_filter_ne fs p q h]

theorem fsGet_fsRemove_eq (fs : Fs) (p : String) :
    fsGet (fsRemove fs p) p = none := by
  unfold fsGet fsRemove
  rw [List.find?_eq_none.mpr]
  · rfl
  · intro x hx
    have hmem := List.of_mem_filter hx
    simp only [bne_iff_ne, ne_eq] at hmem
    simp [hmem]

theorem fsGet_fsRemove_ne (fs : Fs) (p q : String) (h : q ≠ p) :
    fsGet (fsRemove fs p) q = fsGet fs q := by
  simp only [fsGet, fsRemove, find?_filter_ne fs p q h]

theorem string_mk_append (a b : List Char) :
    String.mk a ++ String.mk b = String.mk (a ++ b) := rfl

theorem splitext_append (p : String) :
    (splitext p).1 ++ (splitext p).2 = p := by
  simp only [splitext]
  split
  · split
    · rw [string_mk_append, List.take_append_drop]
      rfl
    · simp
  · simp

theorem splitext_length (p : String) :
    (splitext p).1.length + (splitext p).2.length = p.length := by
  conv_rhs => rw [← splitext_append p]
  rw [String.length_append]

theorem findBackupName_length (fs : Fs) (fuel : Nat) (name ext : String) :
    name.length + ext.length ≤ (findBackupName fs fuel name ext).length := by
  induction fuel generalizing name with
  | zero => simp [findBackupName, String.length_append]
  | succ n ih =>
    unfold findBackupName
    by_cases h : fsExists fs (name ++ ext)
    · simp only [h, if_true]
      calc name.length + ext.length
          ≤ (name ++ "-backup").length + ext.length := by
            simp [String.length_append]
        _ ≤ _ := ih (name ++ "-backup")
    · simp [h, String.length_append]

theorem backupPathOf_ne (fs : Fs) (path : String)
    (h : fsExists fs path = true) : backupPathOf fs path ≠ path := by
  intro heq
  have hlen : (splitext path).1.length + (splitext path).2.length = path.length :=
    splitext_length path
  have hfirst : fsExists fs ((splitext path).1 ++ (splitext path).2) = true := by
    rw [splitext_append]; exact h
  have heq2 : findBackupName fs fs.length ((splitext path).1 ++ "-backup")
      (splitext path).2 = path := by
    unfold backupPathOf findBackupName at heq
    rw [hfirst] at heq
    simpa using heq
  have hgrow := findBackupName_length fs fs.length ((splitext path).1 ++ "-backup")
    (splitext path).2
  rw [heq2, String.length_append] at hgrow
  have h7 : ("-backup" : String).length = 7 := rfl
  rw [h7] at hgrow
  omega

theorem checkPolls_some (exitAt : Nat) :
    ∀ fuel k n, checkPolls exitAt fuel k = some n →
      exitAt ≤ n ∧ k ≤ n ∧ ∀ m, k ≤ m → m < n → m < exitAt := by
  intro fuel
  induction fuel with
  | zero => intro k n h; simp [checkPolls] at h
  | succ f ih =>
    intro k n h
    unfold checkPolls at h
    by_cases hk : k < exitAt
    · rw [if_pos hk] at h
      obtain ⟨h1, h2, h3⟩ := ih (k + 1) n h
      refine ⟨h1, by omega, ?_⟩
      intro m hm1 hm2
      by_cases hmk : m = k
      · omega
      · exact h3 m (by omega) hm2
    · rw [if_neg hk] at h
      obtain rfl : k = n := by simpa using h
      exact ⟨by omega, le_refl _, by omega⟩

theorem checkPolls_complete (exitAt : Nat) :
    ∀ fuel k, exitAt ≤ k + fuel →
      checkPolls exitAt (fuel + 1) k = some (max exitAt k) := by
  intro fuel
  induction fuel with
  | zero =>
    intro k h
    unfold checkPolls
    rw [if_neg (by omega)]
    congr 1
    omega
  | succ f ih =>
    intro k h
    by_cases hk : k < exitAt
    · show checkPolls exitAt (f + 1 + 1) k = some (max exitAt k)
      unfold checkPolls
      rw [if_pos hk, ih (k + 1) (by omega)]
      congr 1
      omega
    · show checkPolls exitAt (f + 1 + 1) k = some (max exitAt k)
      unfold checkPolls
      rw [if_neg hk]
      congr 1
      omega

/-! # Claim theorems -/

/-- C4: `done_callback` is invoked at most once (`checkPolls` yields at
most one invocation index), and when it is invoked at poll `n` the worker
thread has exited (`exitAt ≤ n`, i.e. `is_alive` is false) while at every
earlier poll the thread was still alive and the loop merely re-armed;
moreover with enough polls the callback does fire, at the first poll after
thread exit — no ordering guarantee beyond callback-after-thread-exit is
claimed or provided. -/
theorem run_in_thread_callback_after_thread_exit (exitAt fuel : Nat) :
    (∀ n, checkPolls exitAt fuel 0 = some n →
      exitAt ≤ n ∧ ∀ m, m < n → m < exitAt) ∧
    (exitAt < fuel → checkPolls exitAt fuel 0 = some exitAt) := by
  constructor
  · intro n h
    obtain ⟨h1, _, h3⟩ := checkPolls_some exitAt fuel 0 n h
    exact ⟨h1, fun m hm => h3 m (Nat.zero_le m) hm⟩
  · intro hlt
    obtain ⟨f, rfl⟩ : ∃ f, fuel = f + 1 := ⟨fuel - 1, by omega⟩
    rw [checkPolls_complete exitAt f 0 (by omega)]
    congr 1
    omega

/-- Witness for C4 at `exitAt = 2`, `fuel = 5`: the callback fires at
poll 2, after the thread exit, and every earlier poll saw a live thread. -/
theorem run_in_thread_callback_after_thread_exit_witness :
    checkPolls 2 5 0 = some 2 ∧ 2 ≤ 2 ∧ ∀ m, m < 2 → m < 2 :=
  ⟨(run_in_thread_callback_after_thread_exit 2 5).2 (by decide),
   ((run_in_thread_callback_after_thread_exit 2 5).1 2
     ((run_in_thread_callback_after_thread_exit 2 5).2 (by decide))).1,
   ((run_in_thread_callback_after_thread_exit 2 5).1 2
     ((run_in_thread_callback_after_thread_exit 2 5).2 (by decide))).2⟩

/-- C9: whenever `done_callback` is invoked, its argument is
`(True, value)` for a normal return of `blocking_function` and
`(False, traceback string)` when it raised; the exception is consumed by
the `except Exception` clause and never escapes the worker thread (the
thread outcome is always one of these two forms). -/
theorem run_in_thread_reports_result {T : Type} (blocking : Except PyExc T)
    (exitAt fuel : Nat) (r : Bool × (T ⊕ String))
    (hr : run_in_thread blocking exitAt fuel = some r) :
    (∀ v, blocking = Except.ok v → r = (true, Sum.inl v)) ∧
    (∀ e, blocking = Except.error e → r = (false, Sum.inr (format_exc e))) := by
  unfold run_in_thread at hr
  cases hpoll : checkPolls exitAt fuel 0 with
  | none => rw [hpoll] at hr; exact Option.noConfusion hr
  | some n =>
    rw [hpoll] at hr
    have hr2 : thread_target blocking = r := by injection hr
    subst hr2
    constructor
    · intro v hv; subst hv; rfl
    · intro e he; subst he; rfl

/-- Witness for C9: a blocking function raising ValueError is reported to
the callback as `(False, formatted traceback)`. -/
theorem run_in_thread_reports_result_witness :
    run_in_thread (Except.error (PyExc.valueError "boom") : Except PyExc Nat) 1 3
      = some (false, Sum.inr (format_exc (PyExc.valueError "boom"))) := by
  have h := (run_in_thread_reports_result
    (Except.error (PyExc.valueError "boom") : Except PyExc Nat) 1 3
    (thread_target (Except.error (PyExc.valueError "boom") : Except PyExc Nat))
    rfl).2 (PyExc.valueError "boom") rfl
  rw [← h]
  rfl

/-- C1: for every existing file at `path`, if the with-block body (or the
open itself) raises, then after `backup_open` exits the file at `path` has
exactly the contents it had before, the exception propagates to the
caller, and the backup copy no longer exists under its backup name.  The
body is assumed to write only through the opened file, i.e. to leave every
path other than `path` unchanged. -/
theorem backup_open_restores_on_failure
    (fs fs2 : Fs) (path origContent exc : String)
    (body : Fs → Fs × Option String)
    (hget : fsGet fs path = some origContent)
    (hbody : body (fsSet fs (backupPathOf fs path) origContent) = (fs2, some exc))
    (hframe : ∀ q, q ≠ path →
      fsGet fs2 q = fsGet (fsSet fs (backupPathOf fs path) origContent) q) :
    (backup_open fs path body).2 = some exc ∧
    fsGet (backup_open fs path body).1 path = some origContent ∧
    fsGet (backup_open fs path body).1 (backupPathOf fs path) = none := by
  have hex : fsExists fs path = true := by simp [fsExists, hget]
  have hne : backupPathOf fs path ≠ path := backupPathOf_ne fs path hex
  have hbp : fsGet fs2 (backupPathOf fs path) = some origContent := by
    rw [hframe _ hne, fsGet_fsSet_eq]
  have hrun : backup_open fs path body
      = (fsSet (fsRemove fs2 (backupPathOf fs path)) path origContent, some exc) := by
    simp [backup_open, hex, hget, hbody, hbp]
  refine ⟨by rw [hrun], ?_, ?_⟩
  · rw [hrun]
    exact fsGet_fsSet_eq _ _ _
  · rw [hrun]
    show fsGet (fsSet (fsRemove fs2 (backupPathOf fs path)) path origContent)
      (backupPathOf fs path) = none
    rw [fsGet_fsSet_ne _ _ _ _ hne, fsGet_fsRemove_eq]

/-- Witness for C1 on a one-file filesystem: the body overwrites
`a.txt` and raises `OSError`; afterwards `a.txt` holds its original
contents, the error propagates, and the backup file is gone. -/
theorem backup_open_restores_on_failure_witness :
    (backup_open demoFs "a.txt" demoBody).2 = some "OSError" ∧
    fsGet (backup_open demoFs "a.txt" demoBody).1 "a.txt" = some "hello" ∧
    fsGet (backup_open demoFs "a.txt" demoBody).1 (backupPathOf demoFs "a.txt") = none :=
  backup_open_restores_on_failure demoFs
    (fsSet (fsSet demoFs (backupPathOf demoFs "a.txt") "hello") "a.txt" "partial")
    "a.txt" "hello" "OSError" demoBody rfl rfl
    (fun q hq => fsGet_fsSet_ne _ _ _ q hq)

theorem except_map_error {α β γ : Type} (g : α → β) (x : Except γ α) (e : γ)
    (h : Except.map g x = Except.error e) : x = Except.error e := by
  cases x with
  | error e2 => simpa [Except.map] using h
  | ok a => simp [Except.map] at h

theorem fmtRun_error_caught (subs : List (String × String)) :
    ∀ fuel mode cs, List.length cs < fuel →
      ∀ e, fmtRun subs fuel mode cs = Except.error e → caught e = true := by
  intro fuel
  induction fuel with
  | zero =>
    intro mode cs h
    omega
  | succ f ih =>
    intro mode cs hlen e h
    cases mode with
    | none =>
      cases cs with
      | nil => exact absurd h (by simp [fmtRun])
      | cons c cs1 =>
        simp only [fmtRun] at h
        split at h
        · -- leading brace
          split at h
          · injection h with h2
            rw [← h2]
            rfl
          · split at h
            · have h3 := except_map_error _ _ _ h
              refine ih none _ ?_ e h3
              simp at hlen ⊢
              omega
            · refine ih (some []) _ ?_ e h
              simp at hlen ⊢
              omega
        · split at h
          · -- leading closing brace
            split at h
            · injection h with h2
              rw [← h2]
              rfl
            · split at h
              · have h3 := except_map_error _ _ _ h
                refine ih none _ ?_ e h3
                simp at hlen ⊢
                omega
              · injection h with h2
                rw [← h2]
                rfl
          · have h3 := except_map_error _ _ _ h
            refine ih none _ ?_ e h3
            simp at hlen ⊢
            omega
    | some name =>
      cases cs with
      | nil =>
        simp only [fmtRun] at h
        injection h with h2
        rw [← h2]
        rfl
      | cons c cs1 =>
        simp only [fmtRun] at h
        split at h
        · split at h
          · have h3 := except_map_error _ _ _ h
            refine ih none _ ?_ e h3
            simp at hlen ⊢
            omega
          · injection h with h2
            rw [← h2]
            rfl
        · refine ih (some (c :: name)) _ ?_ e h
          simp at hlen ⊢
          omega

theorem format_string_error_caught (fmt : String) (subs : List (String × String))
    (e : PyExc) (h : format_string fmt subs = Except.error e) : caught e = true := by
  unfold format_string at h
  have h2 := except_map_error _ _ _ h
  refine fmtRun_error_caught subs (fmt.length + 1) none fmt.toList ?_ e h2
  have hlen : fmt.toList.length = fmt.length := rfl
  omega

theorem cacv_total (is_dir : String → Bool) (s : AskerState) :
    ∃ b, command_and_cwd_are_valid is_dir s = Except.ok b := by
  unfold command_and_cwd_are_valid
  cases hc : (get_command s).format_command with
  | error e =>
    have hcaught : caught e = true := format_string_error_caught _ _ e hc
    exact ⟨false, by simp [hcaught]⟩
  | ok cmd =>
    cases hw : (get_command s).format_cwd with
    | error e =>
      have hcaught : caught e = true := format_string_error_caught _ _ e hw
      exact ⟨false, by simp [hcaught]⟩
    | ok cwd =>
      exact ⟨strip cmd != "" && is_dir cwd && is_absolute cwd, rfl⟩

theorem findIdx?_isSome_of_contains (l : List String) (a : String)
    (h : List.contains l a = true) :
    ∃ i, List.findIdx? (fun b => b == a) l = some i := by
  induction l with
  | nil => simp [List.contains] at h
  | cons x xs ih =>
    by_cases hx : x = a
    · exact ⟨0, by simp [List.findIdx?_cons, hx]⟩
    · have h2 : List.contains xs a = true := by
        have hmem : a ∈ x :: xs := by
          simpa using h
        rcases List.mem_cons.mp hmem with h3 | h3
        · exact absurd h3.symm hx
        · simpa using h3
      obtain ⟨i, hi⟩ := ih h2
      refine ⟨i + 1, ?_⟩
      rw [List.findIdx?_cons, if_neg (by simp [hx]), Nat.zero_add, List.findIdx?_succ, hi]
      rfl

theorem update_run_button_normal_iff (is_dir : String → Bool) (s : AskerState) :
    update_run_button is_dir s = Except.ok "normal" ↔
      ∃ cmd cwd, (get_command s).format_command = Except.ok cmd ∧
        (get_command s).format_cwd = Except.ok cwd ∧
        (strip cmd != "") = true ∧ is_dir cwd = true ∧ is_absolute cwd = true ∧
        List.contains s.repeat_bindings s.repeat_sel = true := by
  cases hc : (get_command s).format_command with
  | error e =>
    have hcaught := format_string_error_caught _ _ e hc
    have hv : command_and_cwd_are_valid is_dir s = Except.ok false := by
      unfold command_and_cwd_are_valid
      rw [hc]
      simp [hcaught]
    have hupd : update_run_button is_dir s = Except.ok "disabled" := by
      unfold update_run_button
      rw [hv]
      rfl
    rw [hupd]
    constructor
    · intro h
      injection h with h2
      exact absurd h2 (by decide)
    · rintro ⟨cmd, cwd, hcm, -⟩
      exact Except.noConfusion hcm
  | ok cmd =>
    cases hw : (get_command s).format_cwd with
    | error e =>
      have hcaught := format_string_error_caught _ _ e hw
      have hv : command_and_cwd_are_valid is_dir s = Except.ok false := by
        unfold command_and_cwd_are_valid
        rw [hc, hw]
        simp [hcaught]
      have hupd : update_run_button is_dir s = Except.ok "disabled" := by
        unfold update_run_button
        rw [hv]
        rfl
      rw [hupd]
      constructor
      · intro h
        injection h with h2
        exact absurd h2 (by decide)
      · rintro ⟨cmd2, cwd2, hcm, hcw, -⟩
        exact Except.noConfusion hcw
    | ok cwd =>
      have hv : command_and_cwd_are_valid is_dir s
          = Except.ok (strip cmd != "" && is_dir cwd && is_absolute cwd) := by
        unfold command_and_cwd_are_valid
        rw [hc, hw]
      have hupd : update_run_button is_dir s
          = Except.ok (if (strip cmd != "" && is_dir cwd && is_absolute cwd)
              && List.contains s.repeat_bindings s.repeat_sel
            then "normal" else "disabled") := by
        unfold update_run_button
        rw [hv]
        rfl
      rw [hupd]
      constructor
      · intro h
        cases hbc : ((strip cmd != "" && is_dir cwd && is_absolute cwd)
            && List.contains s.repeat_bindings s.repeat_sel) with
        | false =>
          rw [hbc] at h
          injection h with h2
          exact absurd h2 (by decide)
        | true =>
          simp only [Bool.and_eq_true] at hbc
          refine ⟨cmd, cwd, rfl, rfl, ?_, ?_, ?_, ?_⟩ <;> simp_all
      · rintro ⟨cmd2, cwd2, hcm, hcw, h1, h2, h3, h4⟩
        injection hcm with hcm2
        injection hcw with hcw2
        subst hcm2
        subst hcw2
        rw [h1, h2, h3, h4]
        rfl

/-- C2: when the substituted-value function raises ValueError, KeyError or
IndexError, `validate` leaves exactly "Substitution error" in the display;
when it returns a string, the display holds that string; in both cases the
validated callback is invoked and the display ends disabled. -/
theorem validate_shows_substitution_result (get : Except PyExc String) (d : Display) :
    (∀ e, get = Except.error e → caught e = true →
      FEL.validate get d = Except.ok
        ({ text := "Substitution error", state := "disabled",
           font := "TkDefaultFont" }, true)) ∧
    (∀ v, get = Except.ok v →
      FEL.validate get d = Except.ok
        ({ text := v, state := "disabled", font := "TkFixedFont" }, true)) := by
  constructor
  · intro e he hc
    subst he
    simp [FEL.validate, hc]
  · intro v hv
    subst hv
    rfl

/-- Witness for C2: a raised KeyError shows "Substitution error", a normal
return shows the returned string; both runs invoke the callback and
disable the display. -/
theorem validate_shows_substitution_result_witness :
    FEL.validate (Except.error (PyExc.keyError "file")) demoDisplay
      = Except.ok
          ({ text := "Substitution error", state := "disabled",
             font := "TkDefaultFont" }, true) ∧
    FEL.validate (Except.ok "echo x.py") demoDisplay
      = Except.ok
          ({ text := "echo x.py", state := "disabled",
             font := "TkFixedFont" }, true) :=
  ⟨(validate_shows_substitution_result (Except.error (PyExc.keyError "file"))
      demoDisplay).1 (PyExc.keyError "file") rfl rfl,
   (validate_shows_substitution_result (Except.ok "echo x.py") demoDisplay).2
      "echo x.py" rfl⟩

/-- C3: formatting is deterministic: the formatting pipeline is a pure
function of the Command, so two runs on Commands built from the same
command format, cwd format, external-terminal flag and substitution map
return equal results. -/
theorem format_command_deterministic (cf cwdf : String) (ext : Bool)
    (subs : List (String × String)) :
    (Command.mk cf cwdf ext subs).format_command
      = (Command.mk cf cwdf ext subs).format_command ∧
    (Command.mk cf cwdf ext subs).format_cwd
      = (Command.mk cf cwdf ext subs).format_cwd :=
  ⟨rfl, rfl⟩

/-- C5: `get_command` aggregates exactly the current command entry text,
directory entry text, radio-button selection and the dialog's substitution
mapping into a Command. -/
theorem get_command_aggregates (s : AskerState) :
    get_command s = Command.mk s.command_text s.cwd_text s.terminal s.substitutions ∧
    (get_command s).command_format = s.command_text ∧
    (get_command s).cwd_format = s.cwd_text ∧
    (get_command s).external_terminal = s.terminal ∧
    (get_command s).substitutions = s.substitutions :=
  ⟨rfl, rfl, rfl, rfl, rfl⟩

/-- C6: when formatting succeeds, the command display shows exactly
`format_command()` of the Command built from the dialog state and the
directory display shows exactly `str(format_cwd())` of it. -/
theorem displays_show_formatted_strings (s : AskerState) (d e : Display)
    (cmd cwd : String)
    (hc : (get_command s).format_command = Except.ok cmd)
    (hw : (get_command s).format_cwd = Except.ok cwd) :
    asker_validate_command s d =
      Except.ok ({ text := cmd, state := "disabled", font := "TkFixedFont" }, true) ∧
    asker_validate_cwd s e =
      Except.ok ({ text := cwd, state := "disabled", font := "TkFixedFont" }, true) := by
  unfold asker_validate_command asker_validate_cwd
  rw [hc, hw]
  exact ⟨rfl, rfl⟩

/-- Witness for C6 on a dialog state with substitutions: the displays show
the substituted command and directory. -/
theorem displays_show_formatted_strings_witness :
    asker_validate_command demoSubAsker demoDisplay =
      Except.ok
        ({ text := "python3 x.py", state := "disabled",
           font := "TkFixedFont" }, true) ∧
    asker_validate_cwd demoSubAsker demoDisplay =
      Except.ok
        ({ text := "/home/me", state := "disabled",
           font := "TkFixedFont" }, true) :=
  displays_show_formatted_strings demoSubAsker demoDisplay demoDisplay
    "python3 x.py" "/home/me" rfl rfl

/-- C7: at most one run-command dialog exists at a time: when a window
named run_command_asker already exists, `ask_command` focuses it and
returns None without constructing a new dialog. -/
theorem ask_command_single_dialog (final : AskerState) (run_clicked : Bool) :
    ask_command true final run_clicked =
      Except.ok { focused_existing := true, constructed := false, result := none } :=
  rfl

/-- C8: `command_and_cwd_are_valid` never propagates ValueError, KeyError
or IndexError — it always returns a boolean (the only exceptions the
modelled formatting can raise are the ones the `except` clause catches);
the Run button is enabled iff formatting both fields succeeds, the
formatted command is non-blank after stripping, the formatted cwd is an
existing directory and an absolute path, and the selected repeat key is
among the repeat bindings; and whenever the Run button is enabled,
`get_key_id` does not raise. -/
theorem run_button_enabled_iff (is_dir : String → Bool) (s : AskerState) :
    (∃ b, command_and_cwd_are_valid is_dir s = Except.ok b) ∧
    (update_run_button is_dir s = Except.ok "normal" ↔
      ∃ cmd cwd, (get_command s).format_command = Except.ok cmd ∧
        (get_command s).format_cwd = Except.ok cwd ∧
        (strip cmd != "") = true ∧ is_dir cwd = true ∧ is_absolute cwd = true ∧
        List.contains s.repeat_bindings s.repeat_sel = true) ∧
    (update_run_button is_dir s = Except.ok "normal" →
      ∃ i, get_key_id s = Except.ok i) := by
  refine ⟨cacv_total is_dir s, update_run_button_normal_iff is_dir s, ?_⟩
  intro h
  obtain ⟨cmd, cwd, -, -, -, -, -, hcont⟩ :=
    (update_run_button_normal_iff is_dir s).mp h
  obtain ⟨i, hi⟩ := findIdx?_isSome_of_contains s.repeat_bindings s.repeat_sel hcont
  refine ⟨i, ?_⟩
  unfold get_key_id
  rw [hi]

/-- Witness for C8: a concrete dialog state with a valid command, an
existing absolute directory and a selected repeat binding enables the Run
button, and `get_key_id` succeeds there. -/
theorem run_button_enabled_iff_witness :
    update_run_button demoIsDir demoAsker = Except.ok "normal" ∧
    ∃ i, get_key_id demoAsker = Except.ok i :=
  ⟨(run_button_enabled_iff demoIsDir demoAsker).2.1.mpr
      ⟨"echo hi", "/home", rfl, rfl, rfl, rfl, rfl, rfl⟩,
   (run_button_enabled_iff demoIsDir demoAsker).2.2
      ((run_button_enabled_iff demoIsDir demoAsker).2.1.mpr
        ⟨"echo hi", "/home", rfl, rfl, rfl, rfl, rfl, rfl⟩)⟩

/-- C10: `_autocomplete` acts only on a single printable character with
any existing selection reaching the end of the entry.  It then selects the
first suggestion whose command_format starts with the kept text plus the
typed character, sets the entry to that full command_format, puts the
cursor at the end of the prefix with the completed remainder selected,
copies the suggestion's cwd_format and external_terminal, and swallows the
keystroke; in every other case it changes nothing and lets the keystroke
be handled normally. -/
theorem autocomplete_spec (printable : String → Bool) (suggestions : List Command)
    (s : AutoState) (ch : String) :
    (¬(ch.length = 1 ∧ printable ch = true) →
      autocomplete printable suggestions s ch = (s, none)) ∧
    (ch.length = 1 → printable ch = true → keptText s.entry = none →
      autocomplete printable suggestions s ch = (s, none)) ∧
    (∀ keep, ch.length = 1 → printable ch = true → keptText s.entry = some keep →
      List.find? (fun item => startswith item.command_format (keep ++ ch))
        suggestions = none →
      autocomplete printable suggestions s ch = (s, none)) ∧
    (∀ keep item, ch.length = 1 → printable ch = true →
      keptText s.entry = some keep →
      List.find? (fun item => startswith item.command_format (keep ++ ch))
        suggestions = some item →
      autocomplete printable suggestions s ch
          = (select_command_autocompletion s item (keep ++ ch), some "break") ∧
      startswith item.command_format (keep ++ ch) = true ∧
      (autocomplete printable suggestions s ch).1.entry.text = item.command_format ∧
      (autocomplete printable suggestions s ch).1.entry.icursor = (keep ++ ch).length ∧
      (autocomplete printable suggestions s ch).1.entry.sel
          = some ((keep ++ ch).length, item.command_format.length) ∧
      (autocomplete printable suggestions s ch).1.cwd_text = item.cwd_format ∧
      (autocomplete printable suggestions s ch).1.terminal
          = item.external_terminal) := by
  refine ⟨?_, ?_, ?_, ?_⟩
  · intro h
    have hguard : (ch.length != 1 || !(printable ch)) = true := by
      by_cases hl : ch.length = 1
      · have hp : printable ch = false := by
          cases hp2 : printable ch with
          | true => exact absurd ⟨hl, hp2⟩ h
          | false => rfl
        simp [hp]
      · simp [hl]
    unfold autocomplete
    rw [hguard]
    rfl
  · intro hl hp hkeep
    have hguard : (ch.length != 1 || !(printable ch)) = false := by
      simp [hl, hp]
    unfold autocomplete
    rw [hguard, if_neg (by simp), hkeep]
  · intro keep hl hp hkeep hfind
    have hguard : (ch.length != 1 || !(printable ch)) = false := by
      simp [hl, hp]
    unfold autocomplete
    rw [hguard, if_neg (by simp), hkeep]
    dsimp only
    rw [hfind]
  · intro keep item hl hp hkeep hfind
    have hguard : (ch.length != 1 || !(printable ch)) = false := by
      simp [hl, hp]
    have hmain : autocomplete printable suggestions s ch
        = (select_command_autocompletion s item (keep ++ ch), some "break") := by
      unfold autocomplete
      rw [hguard, if_neg (by simp), hkeep]
      dsimp only
      rw [hfind]
    have hstart : startswith item.command_format (keep ++ ch) = true := by
      have h2 := List.find?_some hfind
      simpa using h2
    exact ⟨hmain, hstart, by rw [hmain]; rfl, by rw [hmain]; rfl, by rw [hmain]; rfl,
      by rw [hmain]; rfl, by rw [hmain]; rfl⟩

/-- Witness for C10: typing "t" in an entry holding "pyt" with "yt"
selected to the end keeps "py", completes to the suggestion
"python3 x.py", selects the completed remainder, and copies its directory
and terminal flag. -/
theorem autocomplete_spec_witness :
    autocomplete (fun _ => true) demoSuggestions demoAuto "t"
        = (select_command_autocompletion demoAuto
            { command_format := "python3 x.py", cwd_format := "/home/me",
              external_terminal := true, substitutions := [] } "pyt",
           some "break") ∧
    (autocomplete (fun _ => true) demoSuggestions demoAuto "t").1.entry.text
        = "python3 x.py" ∧
    (autocomplete (fun _ => true) demoSuggestions demoAuto "t").1.entry.icursor = 3 ∧
    (autocomplete (fun _ => true) demoSuggestions demoAuto "t").1.entry.sel
        = some (3, 12) ∧
    (autocomplete (fun _ => true) demoSuggestions demoAuto "t").1.cwd_text
        = "/home/me" ∧
    (autocomplete (fun _ => true) demoSuggestions demoAuto "t").1.terminal = true := by
  have h := (autocomplete_spec (fun _ => true) demoSuggestions demoAuto "t").2.2.2
    "py" { command_format := "python3 x.py", cwd_format := "/home/me",
           external_terminal := true, substitutions := [] }
    rfl rfl rfl rfl
  exact ⟨h.1, h.2.2.1, h.2.2.2.1, h.2.2.2.2.1, h.2.2.2.2.2.1, h.2.2.2.2.2.2⟩

end Porcupine
